import Mathlib

/-!
Verification of the client-side pipeline control surface.

Part 1 embeds the Sequential Stage Enablement Engine
(`src/frontend/js/pipeline.js`, class `PipelineManager`).
Part 2 embeds the WebSocket layer (`src/frontend/js/api.js`,
class `WebSocketManager`) as an explicit event-loop state machine.
Part 3 embeds the reconnecting hook variant
(`src/frontend/src/hooks/useWebSocket.js`).

JavaScript machine details are modelled as follows: a JS `Set` of strings
is a duplicate-free `List String` with `contains`/`setAdd`/`setDelete`;
`Array.prototype.indexOf` is `jsIndexOf` returning `Int` (-1 when absent);
JS float cost figures are embedded as exact rationals (every cost in the
table is an exact multiple of 1/100, and every sum the code forms stays an
exact multiple of 1/100, so `toFixed(2)` is display formatting only).
-/

/-! ## Part 1: the Sequential Stage Enablement Engine (pipeline.js) -/

def AGENT_ORDER : List String :=
  ["scribe", "architect", "forge", "herald", "sentinel", "phoenix"]

/-- One entry of the static `TOKEN_ESTIMATES` table. -/
structure TokenEstimate where
  tokens : Nat
  cost : ℚ
deriving DecidableEq, Repr

/-- The static token/cost table of `pipeline.js` (lines 9-16). -/
def TOKEN_ESTIMATES : List (String × TokenEstimate) :=
  [("scribe",    ⟨2500, 0.05⟩),
   ("architect", ⟨4000, 0.08⟩),
   ("forge",     ⟨12000, 0.20⟩),
   ("herald",    ⟨1500, 0.02⟩),
   ("sentinel",  ⟨3000, 0.06⟩),
   ("phoenix",   ⟨1000, 0.01⟩)]

/-- Table lookup; the default is never reached because `calculateEstimate`
only looks up members of `AGENT_ORDER`. -/
def tokenEstimateFor (agent : String) : TokenEstimate :=
  (TOKEN_ESTIMATES.lookup agent).getD ⟨0, 0⟩

/-- A per-stage config record.  A JS config object is open-ended; the model
keeps the `enabled` flag plus every field that `isAgentConfigured` reads.
`none` stands for a JS `undefined` field. -/
structure AgentConfig where
  enabled : Bool := false
  requirement_text : Option String := none
  repo_path : Option String := none
  target_branch : Option String := none
  repo_url : Option String := none
  release_branch : Option String := none
deriving DecidableEq, Repr

/-- The `agentConfigs` object: one record per stage in `AGENT_ORDER`. -/
structure AgentConfigs where
  scribe : AgentConfig := {}
  architect : AgentConfig := {}
  forge : AgentConfig := {}
  herald : AgentConfig := {}
  sentinel : AgentConfig := {}
  phoenix : AgentConfig := {}
deriving DecidableEq, Repr

/-- The mutable state of a `PipelineManager` instance. -/
structure PipelineState where
  enabledAgents : List String
  agentConfigs : AgentConfigs
deriving DecidableEq, Repr

/-- The constructor state: all stages disabled, configs `{ enabled: false }`. -/
def initialState : PipelineState :=
  { enabledAgents := [], agentConfigs := {} }

/-- JS `Array.prototype.indexOf`: the index of the first occurrence, -1 if
the element is absent. -/
def jsIndexOf (l : List String) (a : String) : Int :=
  match l.findIdx? (fun x => x == a) with
  | some i => (i : Int)
  | none => -1

/-- JS array subscripting `l[i]`: `none` models `undefined`. -/
def jsGet (l : List String) (i : Int) : Option String :=
  if i < 0 then none else l.get? i.toNat

/-- JS `Set.prototype.add` on the duplicate-free list model. -/
def setAdd (l : List String) (a : String) : List String :=
  if l.contains a then l else l ++ [a]

/-- JS `Set.prototype.delete` on the duplicate-free list model. -/
def setDelete (l : List String) (a : String) : List String :=
  l.filter (fun x => x ≠ a)

/-- The loop of `setAgentEnabled` (lines 41-48): the first stage of the
given list that is not in the enabled set, if any. -/
def firstMissing (enabled : List String) : List String → Option String
  | [] => none
  | a :: rest => if enabled.contains a then firstMissing enabled rest else some a

/-- The assignment `this.agentConfigs[agentId].enabled = v` for a stage id
in `AGENT_ORDER` (for an unknown id the JS dereferences `undefined` and
throws; the engine only performs it on members of `AGENT_ORDER`). -/
def setConfigEnabled (cfgs : AgentConfigs) (agentId : String) (v : Bool) : AgentConfigs :=
  if agentId = "scribe" then { cfgs with scribe := { cfgs.scribe with enabled := v } }
  else if agentId = "architect" then { cfgs with architect := { cfgs.architect with enabled := v } }
  else if agentId = "forge" then { cfgs with forge := { cfgs.forge with enabled := v } }
  else if agentId = "herald" then { cfgs with herald := { cfgs.herald with enabled := v } }
  else if agentId = "sentinel" then { cfgs with sentinel := { cfgs.sentinel with enabled := v } }
  else if agentId = "phoenix" then { cfgs with phoenix := { cfgs.phoenix with enabled := v } }
  else cfgs

/-- The structured result object of `setAgentEnabled`. -/
structure SetResult where
  success : Bool
  error : Option String := none
deriving DecidableEq, Repr

/-- `PipelineManager.setAgentEnabled` (pipeline.js lines 35-63).
On enable, every stage before `agentId` must already be enabled, otherwise
a failure result naming the first missing stage is returned and the state
is untouched.  On disable, `agentId` and every later stage are disabled.
The JS behaviour is modelled for `agentId ∈ AGENT_ORDER` (for an unknown id
the JS mutates the set and then throws a `TypeError` on the config write). -/
def setAgentEnabled (st : PipelineState) (agentId : String) (enabled : Bool) :
    SetResult × PipelineState :=
  if enabled then
    let agentIndex := jsIndexOf AGENT_ORDER agentId
    match firstMissing st.enabledAgents (AGENT_ORDER.take agentIndex.toNat) with
    | some missing =>
        ({ success := false, error := some ("Please enable " ++ missing.toUpper ++ " first") }, st)
    | none =>
        ({ success := true },
         { st with enabledAgents := setAdd st.enabledAgents agentId,
                   agentConfigs := setConfigEnabled st.agentConfigs agentId true })
  else
    let agentIndex := jsIndexOf AGENT_ORDER agentId
    let toDisable := AGENT_ORDER.drop agentIndex.toNat
    ({ success := true },
     { st with enabledAgents := toDisable.foldl setDelete st.enabledAgents,
               agentConfigs := toDisable.foldl (fun c a => setConfigEnabled c a false) st.agentConfigs })

/-- `PipelineManager.canEnableAgent` (pipeline.js lines 68-75).  Note that
the code only tests the immediately preceding stage. -/
def canEnableAgent (st : PipelineState) (agentId : String) : Bool :=
  let agentIndex := jsIndexOf AGENT_ORDER agentId
  if agentIndex = 0 then true
  else
    match jsGet AGENT_ORDER (agentIndex - 1) with
    | some prev => st.enabledAgents.contains prev
    | none => false

/-- JS truthiness of an optional string field: `undefined` and `""` are falsy. -/
def truthy : Option String → Bool
  | none => false
  | some s => s ≠ ""

/-- JS truthiness of `config.f && config.f.trim()`. -/
def truthyTrimmed : Option String → Bool
  | none => false
  | some s => s ≠ "" && s.trim ≠ ""

/-- `PipelineManager.isAgentConfigured` (pipeline.js lines 97-117). -/
def isAgentConfigured (st : PipelineState) (agentId : String) : Bool :=
  if agentId = "scribe" then truthyTrimmed st.agentConfigs.scribe.requirement_text
  else if agentId = "architect" then true
  else if agentId = "forge" then
    truthy st.agentConfigs.forge.repo_path && truthy st.agentConfigs.forge.target_branch
  else if agentId = "herald" then truthy st.agentConfigs.herald.repo_url
  else if agentId = "sentinel" then true
  else if agentId = "phoenix" then truthy st.agentConfigs.phoenix.release_branch
  else false

/-- `PipelineManager.getEnabledAgents` (pipeline.js lines 122-124). -/
def getEnabledAgents (st : PipelineState) : List String :=
  AGENT_ORDER.filter st.enabledAgents.contains

/-- One row of the estimate list built by `calculateEstimate`. -/
structure EstimateRow where
  agent : String
  tokens : Nat
  cost : ℚ
deriving DecidableEq, Repr

/-- The return object of `calculateEstimate`.  In the JS, `totalCost` is
formatted with `toFixed(2)`; over this table every reachable total is an
exact multiple of 1/100, so the rational value carries the same content. -/
structure Estimate where
  agents : List EstimateRow
  totalTokens : Nat
  totalCost : ℚ
deriving DecidableEq, Repr

/-- The loop body of `calculateEstimate` (pipeline.js lines 135-144). -/
def estStep (acc : List EstimateRow × Nat × ℚ) (agent : String) :
    List EstimateRow × Nat × ℚ :=
  let est := tokenEstimateFor agent
  (acc.1 ++ [⟨agent, est.tokens, est.cost⟩], acc.2.1 + est.tokens, acc.2.2 + est.cost)

/-- `PipelineManager.calculateEstimate` (pipeline.js lines 129-151). -/
def calculateEstimate (st : PipelineState) : Estimate :=
  let enabledList := getEnabledAgents st
  let r := enabledList.foldl estStep ([], 0, 0)
  { agents := r.1, totalTokens := r.2.1, totalCost := r.2.2 }

/-- Replay a list of `setAgentEnabled` calls (stage id, desired flag). -/
def runCalls (st : PipelineState) : List (String × Bool) → PipelineState
  | [] => st
  | c :: rest => runCalls (setAgentEnabled st c.1 c.2).2 rest

/-- The prefix-enablement invariant I1: the enabled stages, read off in
stage order, form a contiguous front segment of `AGENT_ORDER`. -/
def isPrefixState (st : PipelineState) : Bool :=
  (List.range (AGENT_ORDER.length + 1)).any
    (fun k => AGENT_ORDER.filter st.enabledAgents.contains == AGENT_ORDER.take k)

example : isPrefixState initialState = true := by decide

example :
    (setAgentEnabled initialState "architect" true).1.success = false := by decide

example :
    (setAgentEnabled initialState "scribe" true).1.success = true := by decide

example :
    getEnabledAgents (runCalls initialState
      [("scribe", true), ("architect", true)]) = ["scribe", "architect"] := by decide

/-! ## Set-model lemmas -/

lemma mem_setAdd (l : List String) (a x : String) :
    x ∈ setAdd l a ↔ x ∈ l ∨ x = a := by
  simp only [setAdd]
  split_ifs with h
  · simp only [List.elem_eq_mem, decide_eq_true_eq] at h
    constructor
    · exact Or.inl
    · rintro (hx | rfl)
      · exact hx
      · exact h
  · simp

lemma mem_setDelete (l : List String) (a x : String) :
    x ∈ setDelete l a ↔ x ∈ l ∧ x ≠ a := by
  simp [setDelete, List.mem_filter]

/-! ## The prefix-enablement invariant as a chain of implications -/

lemma isPrefixState_eq_chain (st : PipelineState) :
    isPrefixState st =
      ((!st.enabledAgents.contains "architect" || st.enabledAgents.contains "scribe") &&
       (!st.enabledAgents.contains "forge" || st.enabledAgents.contains "architect") &&
       (!st.enabledAgents.contains "herald" || st.enabledAgents.contains "forge") &&
       (!st.enabledAgents.contains "sentinel" || st.enabledAgents.contains "herald") &&
       (!st.enabledAgents.contains "phoenix" || st.enabledAgents.contains "sentinel")) := by
  cases h0 : st.enabledAgents.contains "scribe" <;>
  cases h1 : st.enabledAgents.contains "architect" <;>
  cases h2 : st.enabledAgents.contains "forge" <;>
  cases h3 : st.enabledAgents.contains "herald" <;>
  cases h4 : st.enabledAgents.contains "sentinel" <;>
  cases h5 : st.enabledAgents.contains "phoenix" <;>
    (simp_all [isPrefixState, AGENT_ORDER]) <;> decide

/-! ## Concrete index / take / drop evaluations over the fixed stage order -/

lemma idxScribe : jsIndexOf AGENT_ORDER "scribe" = 0 := by decide
lemma idxArchitect : jsIndexOf AGENT_ORDER "architect" = 1 := by decide
lemma idxForge : jsIndexOf AGENT_ORDER "forge" = 2 := by decide
lemma idxHerald : jsIndexOf AGENT_ORDER "herald" = 3 := by decide
lemma idxSentinel : jsIndexOf AGENT_ORDER "sentinel" = 4 := by decide
lemma idxPhoenix : jsIndexOf AGENT_ORDER "phoenix" = 5 := by decide

lemma takeIdx0 : AGENT_ORDER.take (Int.toNat 0) = [] := by decide
lemma takeIdx1 : AGENT_ORDER.take (Int.toNat 1) = ["scribe"] := by decide
lemma takeIdx2 : AGENT_ORDER.take (Int.toNat 2) = ["scribe", "architect"] := by decide
lemma takeIdx3 : AGENT_ORDER.take (Int.toNat 3) = ["scribe", "architect", "forge"] := by decide
lemma takeIdx4 : AGENT_ORDER.take (Int.toNat 4) =
    ["scribe", "architect", "forge", "herald"] := by decide
lemma takeIdx5 : AGENT_ORDER.take (Int.toNat 5) =
    ["scribe", "architect", "forge", "herald", "sentinel"] := by decide

lemma dropIdx0 : AGENT_ORDER.drop (Int.toNat 0) =
    ["scribe", "architect", "forge", "herald", "sentinel", "phoenix"] := by decide
lemma dropIdx1 : AGENT_ORDER.drop (Int.toNat 1) =
    ["architect", "forge", "herald", "sentinel", "phoenix"] := by decide
lemma dropIdx2 : AGENT_ORDER.drop (Int.toNat 2) =
    ["forge", "herald", "sentinel", "phoenix"] := by decide
lemma dropIdx3 : AGENT_ORDER.drop (Int.toNat 3) = ["herald", "sentinel", "phoenix"] := by decide
lemma dropIdx4 : AGENT_ORDER.drop (Int.toNat 4) = ["sentinel", "phoenix"] := by decide
lemma dropIdx5 : AGENT_ORDER.drop (Int.toNat 5) = ["phoenix"] := by decide

/-- Each `setAgentEnabled` call preserves the prefix-enablement invariant. -/
lemma setAgentEnabled_preserves_inv (st : PipelineState) (a : String)
    (ha : a ∈ AGENT_ORDER) (e : Bool)
    (hinv : isPrefixState st = true) :
    isPrefixState (setAgentEnabled st a e).2 = true := by
  rw [isPrefixState_eq_chain] at hinv
  rw [isPrefixState_eq_chain]
  fin_cases ha <;> cases e <;>
    simp only [setAgentEnabled, idxScribe, idxArchitect, idxForge, idxHerald,
      idxSentinel, idxPhoenix, takeIdx0, takeIdx1, takeIdx2, takeIdx3, takeIdx4,
      takeIdx5, dropIdx0, dropIdx1, dropIdx2, dropIdx3, dropIdx4, dropIdx5,
      firstMissing, List.foldl] <;>
    (try split_ifs) <;>
    simp_all [mem_setAdd, mem_setDelete]

/-- Replaying calls with in-order stage ids preserves the invariant. -/
lemma runCalls_preserves_inv (calls : List (String × Bool)) :
    ∀ st : PipelineState, (∀ c ∈ calls, c.1 ∈ AGENT_ORDER) →
      isPrefixState st = true → isPrefixState (runCalls st calls) = true := by
  induction calls with
  | nil => intro st _ h; exact h
  | cons c rest ih =>
      intro st hc h
      exact ih _ (fun d hd => hc d (List.mem_cons_of_mem c hd))
        (setAgentEnabled_preserves_inv st c.1 (hc c (List.mem_cons_self c rest)) c.2 h)

/-! ## firstMissing characterization -/

lemma firstMissing_eq_none_iff (enabled : List String) :
    ∀ l : List String, firstMissing enabled l = none ↔
      ∀ a ∈ l, enabled.contains a = true := by
  intro l
  induction l with
  | nil => simp [firstMissing]
  | cons a rest ih =>
      cases ha : enabled.contains a with
      | true =>
          simp only [List.elem_eq_mem, decide_eq_true_eq] at ha
          simp [firstMissing, ha, ih]
      | false =>
          simp only [List.elem_eq_mem, decide_eq_false_iff_not] at ha
          simp [firstMissing, ha]

lemma firstMissing_eq_some (enabled : List String) :
    ∀ (l : List String) (m : String), firstMissing enabled l = some m →
      ∃ pre post, l = pre ++ m :: post ∧
        (∀ b ∈ pre, enabled.contains b = true) ∧
        enabled.contains m = false := by
  intro l
  induction l with
  | nil => intro m h; simp [firstMissing] at h
  | cons a rest ih =>
      intro m h
      cases ha : enabled.contains a with
      | true =>
          rw [firstMissing, ha, if_pos rfl] at h
          obtain ⟨pre, post, hl, hpre, hm⟩ := ih m h
          refine ⟨a :: pre, post, by simp [hl], ?_, hm⟩
          intro b hb
          rcases List.mem_cons.mp hb with rfl | hb
          · exact ha
          · exact hpre b hb
      | false =>
          rw [firstMissing, ha] at h
          simp only [Bool.false_eq_true, if_false, Option.some.injEq] at h
          subst h
          exact ⟨[], rest, rfl, by simp, ha⟩

/-- `PipelineManager.getAgentConfig` (pipeline.js lines 90-92); `none`
models the `undefined` that an unknown stage id yields. -/
def getAgentConfig (st : PipelineState) (agentId : String) : Option AgentConfig :=
  if agentId = "scribe" then some st.agentConfigs.scribe
  else if agentId = "architect" then some st.agentConfigs.architect
  else if agentId = "forge" then some st.agentConfigs.forge
  else if agentId = "herald" then some st.agentConfigs.herald
  else if agentId = "sentinel" then some st.agentConfigs.sentinel
  else if agentId = "phoenix" then some st.agentConfigs.phoenix
  else none

/-! ## Claim C1 -/

/-- Claim C1: for every sequence of `setAgentEnabled` calls with stage ids
drawn from the fixed stage order, starting from the initial all-disabled
state, the enabled set after each call (that is, after every front segment
of the call sequence) is a contiguous prefix of the ordered stage list. -/
theorem prefix_invariant_holds_after_every_call
    (calls first later : List (String × Bool))
    (hsplit : calls = first ++ later)
    (hcalls : ∀ c ∈ calls, c.1 ∈ AGENT_ORDER) :
    isPrefixState (runCalls initialState first) = true := by
  refine runCalls_preserves_inv first initialState ?_ (by decide)
  intro c hc
  exact hcalls c (by rw [hsplit]; exact List.mem_append_left later hc)

/-- Witness for C1 at a concrete toggle sequence. -/
theorem prefix_invariant_holds_after_every_call_witness :
    isPrefixState (runCalls initialState
      [("scribe", true), ("architect", true), ("forge", true), ("architect", false)]) = true :=
  prefix_invariant_holds_after_every_call
    [("scribe", true), ("architect", true), ("forge", true), ("architect", false)]
    [("scribe", true), ("architect", true), ("forge", true), ("architect", false)] []
    (by simp) (by decide)

/-! ## Claim C2 -/

/-- The fully-enabled state reached by enabling every stage in order. -/
def allEnabledState : PipelineState :=
  runCalls initialState (AGENT_ORDER.map (fun a => (a, true)))

/-- Claim C2: `setAgentEnabled (K, false)` succeeds, disables stage K and
every stage ordered after K (membership and config flag), and leaves every
stage ordered before K unchanged (membership and config record); from the
state where all stages are enabled, disabling `architect` leaves exactly
`scribe` enabled. -/
theorem cascade_disable_spec :
    (∀ (st : PipelineState) (agentId : String), agentId ∈ AGENT_ORDER →
      (setAgentEnabled st agentId false).1.success = true ∧
      (∀ b ∈ AGENT_ORDER.drop (jsIndexOf AGENT_ORDER agentId).toNat,
        (setAgentEnabled st agentId false).2.enabledAgents.contains b = false) ∧
      (∀ b ∈ AGENT_ORDER.take (jsIndexOf AGENT_ORDER agentId).toNat,
        (setAgentEnabled st agentId false).2.enabledAgents.contains b
          = st.enabledAgents.contains b ∧
        getAgentConfig (setAgentEnabled st agentId false).2 b = getAgentConfig st b)) ∧
    getEnabledAgents (setAgentEnabled allEnabledState "architect" false).2 = ["scribe"] := by
  constructor
  · intro st agentId ha
    fin_cases ha <;>
      refine ⟨rfl, ?_, ?_⟩ <;>
        simp only [setAgentEnabled, idxScribe, idxArchitect, idxForge, idxHerald,
          idxSentinel, idxPhoenix, takeIdx0, takeIdx1, takeIdx2, takeIdx3, takeIdx4,
          takeIdx5, dropIdx0, dropIdx1, dropIdx2, dropIdx3, dropIdx4, dropIdx5,
          List.foldl, getAgentConfig, setConfigEnabled] <;>
        simp_all [mem_setDelete, List.elem_eq_mem]
  · decide

/-- Witness for C2: concrete cascading disable of `architect`. -/
theorem cascade_disable_spec_witness :
    ((setAgentEnabled allEnabledState "architect" false).1.success = true ∧
      (∀ b ∈ AGENT_ORDER.drop (jsIndexOf AGENT_ORDER "architect").toNat,
        (setAgentEnabled allEnabledState "architect" false).2.enabledAgents.contains b
          = false)) ∧
    getEnabledAgents (setAgentEnabled allEnabledState "architect" false).2 = ["scribe"] :=
  ⟨⟨(cascade_disable_spec.1 allEnabledState "architect" (by decide)).1,
    (cascade_disable_spec.1 allEnabledState "architect" (by decide)).2.1⟩,
   cascade_disable_spec.2⟩

/-! ## Claim C3 -/

/-- Claim C3: when `setAgentEnabled (stageId, true)` is called with some
earlier stage disabled, it returns a structured failure result (the model
is a total function, so no exception is possible) whose error names the
first stage in order that is not yet enabled, and it leaves the whole
state — enabled set and every config record — exactly as it was. -/
theorem enable_rejection_is_atomic (st : PipelineState) (agentId : String)
    (_ha : agentId ∈ AGENT_ORDER)
    (hmiss : ∃ b ∈ AGENT_ORDER.take (jsIndexOf AGENT_ORDER agentId).toNat,
      st.enabledAgents.contains b = false) :
    (setAgentEnabled st agentId true).1.success = false ∧
    (setAgentEnabled st agentId true).2 = st ∧
    ∃ m pre post,
      AGENT_ORDER.take (jsIndexOf AGENT_ORDER agentId).toNat = pre ++ m :: post ∧
      (∀ b ∈ pre, st.enabledAgents.contains b = true) ∧
      st.enabledAgents.contains m = false ∧
      (setAgentEnabled st agentId true).1.error
        = some ("Please enable " ++ m.toUpper ++ " first") := by
  cases hfm : firstMissing st.enabledAgents
      (AGENT_ORDER.take (jsIndexOf AGENT_ORDER agentId).toNat) with
  | none =>
      obtain ⟨b, hb, hbf⟩ := hmiss
      have := (firstMissing_eq_none_iff st.enabledAgents _).mp hfm b hb
      rw [this] at hbf
      exact absurd hbf (by simp)
  | some m =>
      obtain ⟨pre, post, hl, hpre, hm⟩ := firstMissing_eq_some st.enabledAgents _ m hfm
      refine ⟨?_, ?_, m, pre, post, hl, hpre, hm, ?_⟩ <;>
        simp [setAgentEnabled, hfm]

/-- Witness for C3: enabling `forge` from the initial state fails naming
`scribe`, and the state is untouched. -/
theorem enable_rejection_is_atomic_witness :
    (setAgentEnabled initialState "forge" true).1.success = false ∧
    (setAgentEnabled initialState "forge" true).2 = initialState ∧
    ∃ m pre post,
      AGENT_ORDER.take (jsIndexOf AGENT_ORDER "forge").toNat = pre ++ m :: post ∧
      (∀ b ∈ pre, initialState.enabledAgents.contains b = true) ∧
      initialState.enabledAgents.contains m = false ∧
      (setAgentEnabled initialState "forge" true).1.error
        = some ("Please enable " ++ m.toUpper ++ " first") :=
  enable_rejection_is_atomic initialState "forge" (by decide)
    ⟨"scribe", by decide, by decide⟩

/-! ## Claim C4 (corrected) -/

/-- A state outside the prefix invariant: only `architect` enabled. -/
def onlyArchitectState : PipelineState :=
  { enabledAgents := ["architect"], agentConfigs := {} }

/-- Counterexample to claim C4 as stated: in the (unreachable but
representable) state where only `architect` is enabled, `canEnableAgent`
answers `true` for `forge` although the earlier stage `scribe` is not
enabled — the code only inspects the immediately preceding stage. -/
theorem canEnableAgent_counterexample :
    canEnableAgent onlyArchitectState "forge" = true ∧
    "scribe" ∈ AGENT_ORDER.take (jsIndexOf AGENT_ORDER "forge").toNat ∧
    onlyArchitectState.enabledAgents.contains "scribe" = false := by
  decide

/-- Claim C4 as amended: in every state the first stage is always
enableable, and in every state satisfying the prefix invariant (hence in
every state reachable through `setAgentEnabled`) `canEnableAgent` answers
`true` exactly when every stage ordered before the given stage is
enabled. -/
theorem canEnableAgent_amended :
    (∀ st : PipelineState, canEnableAgent st "scribe" = true) ∧
    (∀ (st : PipelineState) (agentId : String), agentId ∈ AGENT_ORDER →
      isPrefixState st = true →
      canEnableAgent st agentId =
        (AGENT_ORDER.take (jsIndexOf AGENT_ORDER agentId).toNat).all
          st.enabledAgents.contains) := by
  constructor
  · intro st
    rfl
  · intro st agentId ha hinv
    rw [isPrefixState_eq_chain] at hinv
    fin_cases ha <;>
      simp only [canEnableAgent, idxScribe, idxArchitect, idxForge, idxHerald,
        idxSentinel, idxPhoenix, takeIdx0, takeIdx1, takeIdx2, takeIdx3, takeIdx4,
        takeIdx5, jsGet, List.all] <;>
      cases h0 : st.enabledAgents.contains "scribe" <;>
      cases h1 : st.enabledAgents.contains "architect" <;>
      cases h2 : st.enabledAgents.contains "forge" <;>
      cases h3 : st.enabledAgents.contains "herald" <;>
      cases h4 : st.enabledAgents.contains "sentinel" <;>
        simp_all [AGENT_ORDER]

/-- Witness for the amended C4 at the reachable all-enabled state. -/
theorem canEnableAgent_amended_witness :
    canEnableAgent allEnabledState "forge" =
      (AGENT_ORDER.take (jsIndexOf AGENT_ORDER "forge").toNat).all
        allEnabledState.enabledAgents.contains :=
  canEnableAgent_amended.2 allEnabledState "forge" (by decide) (by decide)

/-! ## Claim C9 -/

lemma estStep_foldl (l : List String) :
    ∀ acc : List EstimateRow × Nat × ℚ,
      l.foldl estStep acc =
        (acc.1 ++ l.map (fun a =>
            ⟨a, (tokenEstimateFor a).tokens, (tokenEstimateFor a).cost⟩),
         acc.2.1 + (l.map (fun a => (tokenEstimateFor a).tokens)).sum,
         acc.2.2 + (l.map (fun a => (tokenEstimateFor a).cost)).sum) := by
  induction l with
  | nil => intro acc; simp
  | cons a rest ih =>
      intro acc
      rw [List.foldl_cons, ih]
      simp [estStep, add_assoc]

/-- The state reached by enabling `scribe` then `architect`. -/
def scribeArchitectState : PipelineState :=
  runCalls initialState [("scribe", true), ("architect", true)]

/-- Claim C9: `calculateEstimate` lists the static token/cost entry of each
enabled stage in sequence order and returns their sums; it is a pure
function of the enabled set alone (hence idempotent); with exactly
`scribe` and `architect` enabled it returns 6500 tokens and cost 0.13, and
after disabling `architect` again 2500 tokens and cost 0.05.  (In the JS
the total cost is rendered with `toFixed(2)`; all values here are exact
multiples of 1/100, so the rational totals carry the same content.) -/
theorem calculateEstimate_spec :
    (∀ st : PipelineState,
      (calculateEstimate st).agents = (getEnabledAgents st).map (fun a =>
          ⟨a, (tokenEstimateFor a).tokens, (tokenEstimateFor a).cost⟩) ∧
      (calculateEstimate st).totalTokens
        = ((getEnabledAgents st).map (fun a => (tokenEstimateFor a).tokens)).sum ∧
      (calculateEstimate st).totalCost
        = ((getEnabledAgents st).map (fun a => (tokenEstimateFor a).cost)).sum) ∧
    (∀ st1 st2 : PipelineState, getEnabledAgents st1 = getEnabledAgents st2 →
      calculateEstimate st1 = calculateEstimate st2) ∧
    ((calculateEstimate scribeArchitectState).totalTokens = 6500 ∧
     (calculateEstimate scribeArchitectState).totalCost = 0.13) ∧
    ((calculateEstimate (setAgentEnabled scribeArchitectState "architect" false).2).totalTokens
        = 2500 ∧
     (calculateEstimate (setAgentEnabled scribeArchitectState "architect" false).2).totalCost
        = 0.05) := by
  have hen1 : getEnabledAgents scribeArchitectState = ["scribe", "architect"] := by decide
  have hen2 : getEnabledAgents (setAgentEnabled scribeArchitectState "architect" false).2
      = ["scribe"] := by decide
  refine ⟨?_, ?_, ⟨by decide, ?_⟩, by decide, ?_⟩
  · intro st
    simp [calculateEstimate, estStep_foldl]
  · intro st1 st2 h
    simp [calculateEstimate, h]
  · simp only [calculateEstimate, hen1, estStep_foldl, tokenEstimateFor, TOKEN_ESTIMATES]
    norm_num [List.lookup, show ("architect" == "scribe") = false from by decide,
      show ("architect" == "architect") = true from by decide]
  · simp only [calculateEstimate, hen2, estStep_foldl, tokenEstimateFor, TOKEN_ESTIMATES]
    norm_num [List.lookup, show ("scribe" == "scribe") = true from by decide]

/-- Witness for C9: instantiating the purity part at the concrete states. -/
theorem calculateEstimate_spec_witness :
    calculateEstimate scribeArchitectState = calculateEstimate scribeArchitectState :=
  calculateEstimate_spec.2.1 scribeArchitectState scribeArchitectState rfl

/-! ## Claim C10 -/

/-- Claim C10: a stage id that is not one of the six known stages is never
considered configured, whatever the configuration state. -/
theorem isAgentConfigured_unknown_false (st : PipelineState) (agentId : String)
    (h : agentId ∉ AGENT_ORDER) :
    isAgentConfigured st agentId = false := by
  simp only [AGENT_ORDER, List.mem_cons, List.not_mem_nil, or_false, not_or] at h
  obtain ⟨h1, h2, h3, h4, h5, h6⟩ := h
  simp [isAgentConfigured, h1, h2, h3, h4, h5, h6]

/-- Witness for C10 at a concrete unknown stage id. -/
theorem isAgentConfigured_unknown_false_witness :
    isAgentConfigured initialState "warden" = false :=
  isAgentConfigured_unknown_false initialState "warden" (by decide)

/-! ## Part 2: the WebSocket layer (api.js, class WebSocketManager)

The manager and the browser event loop are embedded as an explicit state
machine.  Sockets and keep-alive intervals get numeric ids; handler
closures are represented by the data they capture (the channel `key` and
the `onMessage` callback id, identified by a number).  The browser fires
`message` events only on sockets in the OPEN state, and `close()` leaves
the OPEN state immediately, so a closed socket delivers nothing.  The
environment (network / timer queue) chooses which events fire; the model
is more permissive than a real browser (it may fire events repeatedly),
so safety statements proved over all event sequences hold a fortiori. -/

namespace WsMgr

/-- `readyState` of a socket, with CLOSING and CLOSED collapsed: once
`close()` is called no `message` event fires any more. -/
inductive SockState
  | connecting
  | opened
  | closed
deriving DecidableEq, Repr

/-- One `WebSocket` object together with the data its handlers capture. -/
structure Socket where
  sid : Nat
  url : String
  key : String
  callback : Nat
  state : SockState
deriving DecidableEq, Repr

/-- The `WebSocketManager` instance plus the ambient event loop: all
sockets ever created, the live keep-alive intervals `(timerId, socketId)`,
the `connections` map `key ↦ (socketId, timerId)`, fresh-id counters, the
log of messages handed to callbacks, and the log of heartbeat frames
sent. -/
structure MgrState where
  sockets : List Socket
  timers : List (Nat × Nat)
  connections : List (String × Nat × Nat)
  nextSock : Nat
  nextTimer : Nat
  delivered : List (Nat × String)
  pings : List Nat
deriving DecidableEq, Repr

/-- The empty manager (`new WebSocketManager()`). -/
def mgr0 : MgrState :=
  { sockets := [], timers := [], connections := [], nextSock := 0, nextTimer := 0,
    delivered := [], pings := [] }

/-- `ws.close()`: the socket leaves the OPEN state at once. -/
def closeSock (sockets : List Socket) (sid : Nat) : List Socket :=
  sockets.map (fun s => if s.sid = sid then { s with state := .closed } else s)

/-- `WebSocketManager.disconnect` (api.js lines 201-208): clear the
keep-alive interval, close the socket, drop the registry entry; a no-op
when the key is absent. -/
def disconnect (w : MgrState) (key : String) : MgrState :=
  match w.connections.lookup key with
  | some (sid, tid) =>
      { w with timers := w.timers.filter (fun t => t.1 ≠ tid),
               sockets := closeSock w.sockets sid,
               connections := w.connections.filter (fun c => c.1 ≠ key) }
  | none => w

/-- `WebSocketManager._connect` (api.js lines 157-196): tear down any
existing channel under `key`, then open a fresh socket, start a fresh
keep-alive interval and register both under `key`. -/
def connect (w : MgrState) (key url : String) (cb : Nat) : MgrState :=
  let w := disconnect w key
  { w with sockets := w.sockets ++ [⟨w.nextSock, url, key, cb, .connecting⟩],
           timers := w.timers ++ [(w.nextTimer, w.nextSock)],
           connections := w.connections ++ [(key, w.nextSock, w.nextTimer)],
           nextSock := w.nextSock + 1,
           nextTimer := w.nextTimer + 1 }

/-- Events the environment can fire. -/
inductive MgrEvent
  | openEvt (sid : Nat)
  | msgEvt (sid : Nat) (data : String)
  | closeEvt (sid : Nat)
  | timerFire (tid : Nat)
deriving DecidableEq, Repr

def findSock (w : MgrState) (sid : Nat) : Option Socket :=
  w.sockets.find? (fun s => s.sid = sid)

/-- One event-loop step.  `onopen` only logs; `onmessage` drops the
`"pong"` heartbeat acknowledgement and otherwise hands the frame to the
captured callback; `onclose` deletes the registry entry for the captured
key but does NOT clear the interval (api.js lines 181-184); the interval
closure sends `"ping"` only while `readyState === OPEN` (lines 187-191). -/
def step (w : MgrState) : MgrEvent → MgrState
  | .openEvt sid =>
      match findSock w sid with
      | some s =>
          if s.state = .connecting then
            { w with sockets := w.sockets.map (fun x =>
                if x.sid = sid then { x with state := .opened } else x) }
          else w
      | none => w
  | .msgEvt sid data =>
      match findSock w sid with
      | some s =>
          if s.state = .opened then
            if data = "pong" then w
            else { w with delivered := w.delivered ++ [(s.callback, data)] }
          else w
      | none => w
  | .closeEvt sid =>
      match findSock w sid with
      | some s =>
          { w with sockets := closeSock w.sockets sid,
                   connections := w.connections.filter (fun c => c.1 ≠ s.key) }
      | none => w
  | .timerFire tid =>
      match w.timers.lookup tid with
      | some sid =>
          match findSock w sid with
          | some s => if s.state = .opened then { w with pings := w.pings ++ [sid] } else w
          | none => w
      | none => w

/-- Run a sequence of environment events. -/
def run (w : MgrState) (evs : List MgrEvent) : MgrState :=
  evs.foldl step w

/-- The messages delivered so far to a given callback. -/
def deliveredTo (w : MgrState) (cb : Nat) : List String :=
  (w.delivered.filter (fun d => d.1 = cb)).map Prod.snd

end WsMgr

/-! ## Claim C5 -/

/-- A one-channel manager: `connect` on the empty manager. -/
def mgrOne : WsMgr.MgrState :=
  WsMgr.connect WsMgr.mgr0 "task_7" "ws://localhost:8000/ws/status/7" 0

/-- Claim C5 (refuted by the code): `_connect` does tear down the channel
currently registered under the key, but the replaced socket's own `close`
event runs `this.connections.delete(key)` unconditionally (api.js lines
181-184), deleting the registry entry of its REPLACEMENT.  The next
`connect` for the key then finds no entry, skips the teardown, and leaves
the previous connection live.  Concretely: connect cb0, open, connect cb1
(replacement), close event of the replaced socket 0, connect cb2: the
registry is empty after the close event, so two sockets under `task_7`
are simultaneously live (and the replaced keep-alive interval survives
too); after socket 1 opens and one more `connect` replaces the registered
channel, a frame arriving on socket 1 is still handed to callback 1 —
the earlier callback keeps receiving messages, and the manager does not
hold at most one live connection per key. -/
theorem connect_replace_zombie_connection :
    (let w2 := WsMgr.connect (WsMgr.step mgrOne (WsMgr.MgrEvent.openEvt 0))
        "task_7" "ws://b" 1
     let w3 := WsMgr.step w2 (WsMgr.MgrEvent.closeEvt 0)
     let w4 := WsMgr.connect w3 "task_7" "ws://c" 2
     let w5 := WsMgr.connect (WsMgr.step w4 (WsMgr.MgrEvent.openEvt 1))
        "task_7" "ws://d" 3
     let w6 := WsMgr.step w5 (WsMgr.MgrEvent.msgEvt 1 "zombie")
     w3.connections = [] ∧
     (w4.connections.lookup "task_7").isSome = true ∧
     (w4.sockets.filter (fun s =>
         s.key == "task_7" && !(s.state == WsMgr.SockState.closed))).length = 2 ∧
     w4.timers = [(1, 1), (2, 2)] ∧
     (w5.sockets.filter (fun s =>
         s.key == "task_7" && !(s.state == WsMgr.SockState.closed))).length = 2 ∧
     WsMgr.deliveredTo w6 1 = ["zombie"]) := by
  decide

/-! ## Claim C6 -/

/-- Claim C6 (refuted by the code): the `onclose` handler of
`WebSocketManager._connect` removes the registry entry but never calls
`clearInterval`, so when the connection closes on its own the keep-alive
interval outlives the channel.  Concretely: after `connect`, an open, then
a server-side close, the registry is empty while the interval `(0, 0)` is
still live; firing it sends nothing because the ping is guarded by
`readyState === OPEN`, so the leak is silent.  By contrast, an explicit
`disconnect` does clear the interval. -/
theorem keepalive_interval_outlives_channel :
    ((WsMgr.run mgrOne [WsMgr.MgrEvent.openEvt 0, WsMgr.MgrEvent.closeEvt 0]).connections
        = []) ∧
    ((WsMgr.run mgrOne [WsMgr.MgrEvent.openEvt 0, WsMgr.MgrEvent.closeEvt 0]).timers
        = [(0, 0)]) ∧
    ((WsMgr.step (WsMgr.run mgrOne [WsMgr.MgrEvent.openEvt 0, WsMgr.MgrEvent.closeEvt 0])
        (WsMgr.MgrEvent.timerFire 0)).pings = []) ∧
    ((WsMgr.disconnect (WsMgr.run mgrOne [WsMgr.MgrEvent.openEvt 0]) "task_7").timers
        = []) := by
  decide

/-! ## Part 3: the reconnecting hook (src/hooks/useWebSocket.js)

The hook closes over mutable refs (`wsRef`, `reconnectAttemptsRef`,
`reconnectTimeoutRef`) and two pieces of React state (`connected`,
`lastMessage`).  The embedding carries them in one record together with
the ambient event loop: every socket ever created (with a fourth state
`done` marking that its `close` event has already fired) and the pending
`setTimeout` handles `(timerId, delayMs)`.  The environment decides when
open/message/close events and timeouts fire; `connect`/`disconnect` are
the calls the component makes. -/

namespace Hook

/-- Hook options as used at the call sites (defaults 3000 ms / 5). -/
structure HookConfig where
  reconnectInterval : Nat
  maxReconnectAttempts : Nat
deriving DecidableEq, Repr

def defaultConfig : HookConfig := ⟨3000, 5⟩

/-- Socket lifecycle; `done` means the close event has fired. -/
inductive HSockState
  | connecting
  | opened
  | closed
  | done
deriving DecidableEq, Repr

structure HSocket where
  sid : Nat
  state : HSockState
deriving DecidableEq, Repr

/-- The hook's refs and state plus the ambient event loop. -/
structure HookState where
  connected : Bool
  reconnectAttempts : Nat
  reconnectTimeout : Option Nat
  wsRef : Option Nat
  sockets : List HSocket
  pendingTimeouts : List (Nat × Nat)
  nextSock : Nat
  nextTimer : Nat
  lastMessage : Option String
deriving DecidableEq, Repr

/-- The state after the first render, before `connect` ran. -/
def hook0 : HookState :=
  { connected := false, reconnectAttempts := 0, reconnectTimeout := none,
    wsRef := none, sockets := [], pendingTimeouts := [], nextSock := 0,
    nextTimer := 0, lastMessage := none }

def getSock (w : HookState) (sid : Nat) : Option HSocket :=
  w.sockets.find? (fun s => s.sid = sid)

/-- `wsRef.current?.readyState`. -/
def wsRefState (w : HookState) : Option HSockState :=
  w.wsRef.bind (fun sid => (getSock w sid).map (fun s => s.state))

def setSockState (sockets : List HSocket) (sid : Nat) (st : HSockState) : List HSocket :=
  sockets.map (fun s => if s.sid = sid then { s with state := st } else s)

/-- `ws.close()`: no-op on a socket that is already closed or done. -/
def closeSock (sockets : List HSocket) (sid : Nat) : List HSocket :=
  sockets.map (fun s =>
    if s.sid = sid then
      match s.state with
      | .connecting => { s with state := .closed }
      | .opened => { s with state := .closed }
      | st => { s with state := st }
    else s)

/-- The `connect` callback (useWebSocket.js lines 29-76): bail out if the
current socket is OPEN, otherwise create a fresh socket and store it in
`wsRef`. -/
def connect (w : HookState) : HookState :=
  if wsRefState w = some .opened then w
  else
    { w with sockets := w.sockets ++ [⟨w.nextSock, .connecting⟩],
             wsRef := some w.nextSock,
             nextSock := w.nextSock + 1 }

/-- The `disconnect` callback (useWebSocket.js lines 78-87): clear the
pending reconnect timeout (if the ref holds one), close the current
socket, null the ref, drop `connected`. -/
def disconnect (w : HookState) : HookState :=
  let w1 := match w.reconnectTimeout with
    | some tid => { w with pendingTimeouts := w.pendingTimeouts.filter (fun t => t.1 ≠ tid) }
    | none => w
  let w2 := match w1.wsRef with
    | some sid => { w1 with sockets := closeSock w1.sockets sid, wsRef := none }
    | none => w1
  { w2 with connected := false }

inductive HookEvent
  | openEvt (sid : Nat)
  | msgEvt (sid : Nat) (data : String)
  | closeEvt (sid : Nat)
  | timeoutFire (tid : Nat)
deriving DecidableEq, Repr

/-- One event-loop step.  `onopen` (lines 35-40) sets `connected` and
resets the attempt counter; `onmessage` (lines 42-53) parses and stores
the frame; `onclose` (lines 60-73) drops `connected` and, while the
attempt counter is below the bound, increments it and schedules one
reconnect timeout after the fixed backoff; a firing timeout calls
`connect`. -/
def step (cfg : HookConfig) (w : HookState) : HookEvent → HookState
  | .openEvt sid =>
      match getSock w sid with
      | some s =>
          if s.state = .connecting then
            { w with sockets := setSockState w.sockets sid .opened,
                     connected := true, reconnectAttempts := 0 }
          else w
      | none => w
  | .msgEvt sid data =>
      match getSock w sid with
      | some s =>
          if s.state = .opened then { w with lastMessage := some data } else w
      | none => w
  | .closeEvt sid =>
      match getSock w sid with
      | some s =>
          if s.state = .done then w
          else
            let w1 := { w with sockets := setSockState w.sockets sid .done,
                               connected := false }
            if w1.reconnectAttempts < cfg.maxReconnectAttempts then
              { w1 with reconnectAttempts := w1.reconnectAttempts + 1,
                        pendingTimeouts :=
                          w1.pendingTimeouts ++ [(w1.nextTimer, cfg.reconnectInterval)],
                        reconnectTimeout := some w1.nextTimer,
                        nextTimer := w1.nextTimer + 1 }
            else w1
      | none => w
  | .timeoutFire tid =>
      if w.pendingTimeouts.any (fun t => t.1 = tid) then
        connect { w with pendingTimeouts := w.pendingTimeouts.filter (fun t => t.1 ≠ tid) }
      else w

def run (cfg : HookConfig) (w : HookState) (evs : List HookEvent) : HookState :=
  evs.foldl (step cfg) w

end Hook

namespace Hook

/-- The terminal disconnected state: not connected, no pending timeout,
no connection attempt in flight, attempt budget exhausted. -/
def terminal (cfg : HookConfig) (w : HookState) : Prop :=
  w.connected = false ∧ w.pendingTimeouts = [] ∧
  (∀ s ∈ w.sockets, s.state ≠ HSockState.connecting) ∧
  cfg.maxReconnectAttempts ≤ w.reconnectAttempts

instance (cfg : HookConfig) (w : HookState) : Decidable (terminal cfg w) := by
  unfold terminal
  infer_instance

/-- Environment events cannot leave the terminal state (only an explicit
caller `connect` could). -/
lemma step_terminal (cfg : HookConfig) (w : HookState) (e : HookEvent)
    (h : terminal cfg w) : terminal cfg (step cfg w e) := by
  obtain ⟨hc, hp, hs, hm⟩ := h
  cases e with
  | openEvt sid =>
      simp only [step]
      split
      case h_2 => exact ⟨hc, hp, hs, hm⟩
      case h_1 s hfind =>
        split
        case isFalse => exact ⟨hc, hp, hs, hm⟩
        case isTrue hconn =>
          exact absurd hconn (hs s (List.mem_of_find?_eq_some hfind))
  | msgEvt sid data =>
      simp only [step]
      split
      case h_2 => exact ⟨hc, hp, hs, hm⟩
      case h_1 =>
        split
        case isFalse => exact ⟨hc, hp, hs, hm⟩
        case isTrue => exact ⟨hc, hp, hs, hm⟩
  | closeEvt sid =>
      simp only [step]
      split
      case h_2 => exact ⟨hc, hp, hs, hm⟩
      case h_1 s hfind =>
        split
        case isTrue => exact ⟨hc, hp, hs, hm⟩
        case isFalse =>
          rw [if_neg (by simpa using hm)]
          refine ⟨rfl, hp, ?_, hm⟩
          intro x hx
          simp only [setSockState, List.mem_map] at hx
          obtain ⟨y, hy, rfl⟩ := hx
          split
          · simp
          · exact hs y hy
  | timeoutFire tid =>
      simp only [step]
      rw [if_neg (by simp [hp])]
      exact ⟨hc, hp, hs, hm⟩

/-- Terminal states stay terminal across any event run. -/
lemma run_terminal (cfg : HookConfig) (evs : List HookEvent) :
    ∀ w : HookState, terminal cfg w → terminal cfg (run cfg w evs) := by
  induction evs with
  | nil => intro w h; exact h
  | cons e rest ih => intro w h; exact ih (step cfg w e) (step_terminal cfg w e h)

end Hook

/-! ## Claim C7 -/

/-- Claim C7: (a) each close event schedules at most one reconnect, and
only after the fixed backoff interval; a close with the attempt budget
exhausted schedules nothing; (b) from the terminal state — budget
exhausted, nothing pending, nothing in flight — every later environment
event run leaves the connected flag false and schedules no reconnect
(only an explicit caller reconnect could change that); (c) a successful
open resets the attempt counter to zero. -/
theorem reconnect_bound_spec :
    (∀ (cfg : Hook.HookConfig) (w : Hook.HookState) (sid : Nat),
      (Hook.step cfg w (Hook.HookEvent.closeEvt sid)).pendingTimeouts = w.pendingTimeouts ∨
      ((Hook.step cfg w (Hook.HookEvent.closeEvt sid)).pendingTimeouts
          = w.pendingTimeouts ++ [(w.nextTimer, cfg.reconnectInterval)] ∧
        w.reconnectAttempts < cfg.maxReconnectAttempts)) ∧
    (∀ (cfg : Hook.HookConfig) (w : Hook.HookState),
      cfg.maxReconnectAttempts ≤ w.reconnectAttempts →
      ∀ sid, (Hook.step cfg w (Hook.HookEvent.closeEvt sid)).pendingTimeouts
          = w.pendingTimeouts) ∧
    (∀ (cfg : Hook.HookConfig) (w : Hook.HookState), Hook.terminal cfg w →
      ∀ evs, (Hook.run cfg w evs).connected = false ∧
        (Hook.run cfg w evs).pendingTimeouts = []) ∧
    (∀ (cfg : Hook.HookConfig) (w : Hook.HookState) (sid : Nat) (s : Hook.HSocket),
      Hook.getSock w sid = some s → s.state = Hook.HSockState.connecting →
      (Hook.step cfg w (Hook.HookEvent.openEvt sid)).reconnectAttempts = 0 ∧
      (Hook.step cfg w (Hook.HookEvent.openEvt sid)).connected = true) := by
  refine ⟨?_, ?_, ?_, ?_⟩
  · intro cfg w sid
    simp only [Hook.step]
    split
    case h_2 => exact Or.inl rfl
    case h_1 s hfind =>
      split
      case isTrue => exact Or.inl rfl
      case isFalse =>
        split
        case isTrue hlt => exact Or.inr ⟨rfl, hlt⟩
        case isFalse => exact Or.inl rfl
  · intro cfg w hge sid
    simp only [Hook.step]
    split
    case h_2 => rfl
    case h_1 s hfind =>
      split
      case isTrue => rfl
      case isFalse =>
        rw [if_neg (by simpa using hge)]
  · intro cfg w h evs
    have := Hook.run_terminal cfg evs w h
    exact ⟨this.1, this.2.1⟩
  · intro cfg w sid s hfind hconn
    simp only [Hook.step, hfind, hconn]
    exact ⟨rfl, rfl⟩

/-- Witness for C7: instantiating the terminal-state part at the state
reached after the attempt budget is exhausted, and the reset part at a
concrete opening socket. -/
theorem reconnect_bound_spec_witness :
    (Hook.run Hook.defaultConfig
      { connected := false, reconnectAttempts := 5, reconnectTimeout := some 4,
        wsRef := none, sockets := [⟨0, Hook.HSockState.done⟩], pendingTimeouts := [],
        nextSock := 1, nextTimer := 5, lastMessage := none }
      [Hook.HookEvent.closeEvt 0, Hook.HookEvent.timeoutFire 4]).connected = false ∧
    (Hook.step Hook.defaultConfig (Hook.connect Hook.hook0)
        (Hook.HookEvent.openEvt 0)).reconnectAttempts = 0 := by
  have h1 := reconnect_bound_spec.2.2.1 Hook.defaultConfig
    { connected := false, reconnectAttempts := 5, reconnectTimeout := some 4,
      wsRef := none, sockets := [⟨0, Hook.HSockState.done⟩], pendingTimeouts := [],
      nextSock := 1, nextTimer := 5, lastMessage := none }
    (by decide) [Hook.HookEvent.closeEvt 0, Hook.HookEvent.timeoutFire 4]
  have h2 := reconnect_bound_spec.2.2.2 Hook.defaultConfig (Hook.connect Hook.hook0) 0
    ⟨0, Hook.HSockState.connecting⟩ (by decide) (by decide)
  exact ⟨h1.1, h2.1⟩

/-! ## Claim C8 -/

/-- Claim C8 (refuted by the code): `disconnect` clears the pending
reconnect timeout and closes the socket, but the socket's own `close`
event still fires afterwards, and its handler — which has no way to tell
a planned close from an unplanned one — schedules a fresh reconnect
timeout; when that timeout fires, `connect` opens a brand-new WebSocket.
Concretely: connect, open, `disconnect()`; the close event of the closed
socket then schedules timeout `(0, 3000)` although nothing was pending at
the end of `disconnect`, and its firing creates socket 1 and stores it in
`wsRef` — all without any explicit caller reconnect.  (In the manager of
api.js the same `disconnect` is final because its `onclose` never
reconnects.) -/
theorem disconnect_then_reconnect_fires :
    ((Hook.disconnect (Hook.step Hook.defaultConfig (Hook.connect Hook.hook0)
        (Hook.HookEvent.openEvt 0))).pendingTimeouts = [] ∧
     (Hook.disconnect (Hook.step Hook.defaultConfig (Hook.connect Hook.hook0)
        (Hook.HookEvent.openEvt 0))).wsRef = none) ∧
    (Hook.run Hook.defaultConfig
        (Hook.disconnect (Hook.step Hook.defaultConfig (Hook.connect Hook.hook0)
          (Hook.HookEvent.openEvt 0)))
        [Hook.HookEvent.closeEvt 0]).pendingTimeouts = [(0, 3000)] ∧
    ((Hook.run Hook.defaultConfig
        (Hook.disconnect (Hook.step Hook.defaultConfig (Hook.connect Hook.hook0)
          (Hook.HookEvent.openEvt 0)))
        [Hook.HookEvent.closeEvt 0, Hook.HookEvent.timeoutFire 0]).wsRef = some 1 ∧
     (Hook.run Hook.defaultConfig
        (Hook.disconnect (Hook.step Hook.defaultConfig (Hook.connect Hook.hook0)
          (Hook.HookEvent.openEvt 0)))
        [Hook.HookEvent.closeEvt 0, Hook.HookEvent.timeoutFire 0]).sockets
       = [⟨0, Hook.HSockState.done⟩, ⟨1, Hook.HSockState.connecting⟩]) := by
  decide
